import Mathlib

/-!
Verification development for the sbasm two-pass assembler
(src/sbasm.py, src/Assembler/Assembler.py, src/Assembler/ErrorCodes.py).

The assembler classifies each trimmed source line with a fixed,
precedence-ordered list of anchored regular expressions (DEPTH directive,
define, label-only, instruction type 1/2/3, .word directive, unrecognized).
Following the design in the specification, lines are modelled here as a
tagged classification result carrying the captured regex groups: a numeric
capture is carried already parsed (the Python int call on a captured
literal), a second operand that the int call rejects is carried as a
symbolic name, and the categories are mutually exclusive, matching the
regex precedence.  The rest of the pipeline (symbol table pass, encoding
pass, word layout, error reporting) is translated directly from the
Python source.
-/

/-- ErrorCodes.NO_ERROR from ErrorCodes.py. -/
def ErrorCodes.NO_ERROR : Int := 0

/-- ErrorCodes.BAD_INSTR from ErrorCodes.py. -/
def ErrorCodes.BAD_INSTR : Int := 1

/-- ErrorCodes.BAD_REG from ErrorCodes.py. -/
def ErrorCodes.BAD_REG : Int := 2

/-- ErrorCodes.BAD_IMMED from ErrorCodes.py. -/
def ErrorCodes.BAD_IMMED : Int := 3

/-- ErrorCodes.BIG_IMMED from ErrorCodes.py. -/
def ErrorCodes.BIG_IMMED : Int := 4

/-- ErrorCodes.BIG_DEFINE from ErrorCodes.py. -/
def ErrorCodes.BIG_DEFINE : Int := 5

/-- ErrorCodes.DEFINE_REDEF from ErrorCodes.py. -/
def ErrorCodes.DEFINE_REDEF : Int := 6

/-- ErrorCodes.IMMED_LABEL_NF from ErrorCodes.py. -/
def ErrorCodes.IMMED_LABEL_NF : Int := 7

/-- ErrorCodes.DEPTH_ERROR from ErrorCodes.py. -/
def ErrorCodes.DEPTH_ERROR : Int := 8

/-- ErrorCodes.BAD_DATA from ErrorCodes.py. -/
def ErrorCodes.BAD_DATA : Int := 9

/-- ErrorCodes.DEPTH_DEFINE from ErrorCodes.py. -/
def ErrorCodes.DEPTH_DEFINE : Int := 10

/-- ErrorCodes.BIG_BRANCH from ErrorCodes.py. -/
def ErrorCodes.BIG_BRANCH : Int := 11

/-- ErrorCodes.UNKNOWN from ErrorCodes.py (always the last error). -/
def ErrorCodes.UNKNOWN : Int := 12

/-- ErrorCodes.get_error_message.  The Python code first clamps the code
with min(error_code, UNKNOWN) and then indexes a dict whose keys are the
thirteen defined codes; a key below the range raises KeyError, which is
modelled by the none result. -/
def get_error_message (error_code : Int) (line : Int) (depth : Nat)
    (instruction_count : Int) : Option String :=
  let error_code := min error_code ErrorCodes.UNKNOWN
  let line_str := toString line
  if error_code = ErrorCodes.NO_ERROR then some ""
  else if error_code = ErrorCodes.BAD_INSTR then
    some ("ERROR: line " ++ line_str ++ ": unknown instruction")
  else if error_code = ErrorCodes.BAD_REG then
    some ("ERROR: line " ++ line_str ++ ": unknown register")
  else if error_code = ErrorCodes.BAD_IMMED then
    some ("ERROR: line " ++ line_str ++
      ": the immediate value for mvt should be 0 in the eight least-significant bits")
  else if error_code = ErrorCodes.BIG_IMMED then
    some ("ERROR: line " ++ line_str ++ ": the immediate value is too large")
  else if error_code = ErrorCodes.BIG_DEFINE then
    some ("ERROR: line " ++ line_str ++ ": define value too large")
  else if error_code = ErrorCodes.DEFINE_REDEF then
    some ("ERROR: line " ++ line_str ++ ": define is being redefined")
  else if error_code = ErrorCodes.IMMED_LABEL_NF then
    some ("ERROR: line " ++ line_str ++
      ": undeclared identifier (label or define), or value error")
  else if error_code = ErrorCodes.DEPTH_ERROR then
    some "ERROR: Memory depth must be an integer multiple of 2"
  else if error_code = ErrorCodes.BAD_DATA then
    some ("ERROR: line " ++ line_str ++ ": missing or bad data")
  else if error_code = ErrorCodes.DEPTH_DEFINE then
    some ("ERROR: line " ++ line_str ++
      ": symbol DEPTH is reserved, it cannot be redefined")
  else if error_code = ErrorCodes.BIG_BRANCH then
    some ("ERROR: line " ++ line_str ++ ": the branch target is too large")
  else if error_code = ErrorCodes.UNKNOWN then some "ERROR: UNKNOWN"
  else none

/-- Assembler.MAX_INT_16U. -/
def MAX_INT_16U : Nat := 65535

/-- Assembler.MAX_INT_IMM. -/
def MAX_INT_IMM : Nat := 0x1FF

/-- Assembler.INSTR_STR_TO_VAL, a dict from mnemonic strings to opcode
values; get returns none for a missing key. -/
def INSTR_STR_TO_VAL (s : String) : Option Nat :=
  if s = "mv" then some 0
  else if s = "mvt" then some 1
  else if s = "add" then some 2
  else if s = "sub" then some 3
  else if s = "ld" then some 4
  else if s = "st" then some 5
  else if s = "and" then some 6
  else if s = "b" then some 7
  else if s = "beq" then some 7
  else if s = "bne" then some 7
  else if s = "bcc" then some 7
  else if s = "bcs" then some 7
  else none

/-- Assembler.REG_STR_TO_VAL; both r7 and pc map to register 7. -/
def REG_STR_TO_VAL (s : String) : Option Nat :=
  if s = "r0" then some 0
  else if s = "r1" then some 1
  else if s = "r2" then some 2
  else if s = "r3" then some 3
  else if s = "r4" then some 4
  else if s = "r5" then some 5
  else if s = "r6" then some 6
  else if s = "r7" then some 7
  else if s = "pc" then some 7
  else none

/-- Assembler.COND_STR_TO_VAL. -/
def COND_STR_TO_VAL (s : String) : Option Nat :=
  if s = "" then some 0
  else if s = "eq" then some 1
  else if s = "ne" then some 2
  else if s = "cc" then some 3
  else if s = "cs" then some 4
  else none

/-- Assembler.INSTR_VAL_TO_STR. -/
def INSTR_VAL_TO_STR : List String :=
  ["mv  ", "mvt ", "add ", "sub ", "ld  ", "st  ", "and", "b",
   "beq", "bne", "bcc", "bcs"]

/-- Assembler.REG_VAL_TO_STR. -/
def REG_VAL_TO_STR : List String :=
  ["r0", "r1", "r2", "r3", "r4", "r5", "r6", "r7"]

/-- Assembler.COND_VAL_TO_STR. -/
def COND_VAL_TO_STR : List String :=
  ["  ", "eq", "ne", "cc", "cs", "", "", ""]

/-- A second operand captured by the type 2 / type 3 / .word regexes:
either a literal that Python int(s, 0) parses (carried as its value) or a
text that int rejects, to be treated as a symbolic name. -/
inductive Operand
  | num (n : Nat)
  | sym (s : String)
deriving DecidableEq

/-- Classification of one trimmed source line: the category chosen by the
precedence-ordered regex matches in Assembler.py, together with the
captured groups the later code reads.  The blank constructor covers empty
lines and comment lines, which both passes skip. -/
inductive Line
  | blank
  | depth (d : Nat)
  | define (name : String) (value : Nat)
  | label (name : String)
  | type1 (lbl : Option String) (op ra rb : String) (chk : Bool)
  | type2 (lbl : Option String) (op ra : String) (operand : Operand)
  | type3 (lbl : Option String) (mnem : String) (cond : Option String) (target : Operand)
  | word (lbl : Option String) (data : Operand)
  | unrecognized
deriving DecidableEq

/-- The mutable assembler fields read or written by the two passes. -/
structure St where
  symbol_def_to_num : List (String × Nat)
  width_bits : Nat
  depth_words : Nat
  curr_instr_num : Int
deriving DecidableEq

/-- The field values set in Assembler.init and at the start of
find_labels. -/
def initSt : St :=
  { symbol_def_to_num := []
    width_bits := 16
    depth_words := 256
    curr_instr_num := -1 }

/-- Assembler.is_number_too_large. -/
def is_number_too_large (num : Nat) : Bool :=
  num > MAX_INT_16U

/-- Assembler.is_number_too_large_imm. -/
def is_number_too_large_imm (num : Nat) : Bool :=
  num > MAX_INT_IMM

/-- Assembler.is_number_bad_imm. -/
def is_number_bad_imm (num : Nat) : Bool :=
  (num &&& 0xFF) != 0

/-- Assembler.make_type1_instruction. -/
def make_type1_instruction (instr ra rb : Nat) : Nat :=
  rb ||| (ra <<< 9) ||| (instr <<< 13)

/-- Assembler.make_type2_instruction. -/
def make_type2_instruction (instr ra imm : Nat) : Nat :=
  if ¬ (INSTR_VAL_TO_STR.getD instr "" = "mvt ") then
    (imm &&& 0x1FF) ||| (ra <<< 9) ||| (1 <<< 12) ||| (instr <<< 13)
  else
    (imm >>> 8) ||| (ra <<< 9) ||| (1 <<< 12) ||| (instr <<< 13)

/-- Assembler.make_type3_instruction. -/
def make_type3_instruction (instr cond imm : Nat) : Nat :=
  (imm &&& 0x1FF) ||| (cond <<< 9) ||| (1 <<< 12) ||| (instr <<< 13)

/-- Result of one step of pass 1 on one line: continue with an updated
state, return an error code, or raise an uncaught Python exception. -/
inductive StepRes
  | cont (st : St)
  | err (code : Int)
  | crash
deriving DecidableEq

/-- The shared pass 1 handling of the optional leading label of an
instruction or .word line (the final else branch of find_labels):
reserved-name check, redefinition check, optional binding to the address
curr_instr_num + 1, then the increment of curr_instr_num. -/
def pass1_instr (st : St) (lbl : Option String) : StepRes :=
  match lbl with
  | some l =>
    if l = "DEPTH" then .err ErrorCodes.DEPTH_DEFINE
    else if (st.symbol_def_to_num.lookup l).isSome then .err ErrorCodes.DEFINE_REDEF
    else .cont { st with
      symbol_def_to_num := (l, (st.curr_instr_num + 1).toNat) :: st.symbol_def_to_num
      curr_instr_num := st.curr_instr_num + 1 }
  | none => .cont { st with curr_instr_num := st.curr_instr_num + 1 }

/-- One iteration of the find_labels loop body on a classified line.  An
unrecognized line is a crash: in the Python code no regex matched, match
is None, and the statement label = match.group(2) raises AttributeError
before the diagnostic print below it can run. -/
def pass1_step (st : St) : Line → StepRes
  | .blank => .cont st
  | .depth d =>
    if d % 2 ≠ 0 then .err ErrorCodes.DEPTH_ERROR
    else .cont { st with depth_words := d }
  | .define s n =>
    if s = "DEPTH" then .err ErrorCodes.DEPTH_DEFINE
    else if (st.symbol_def_to_num.lookup s).isSome then .err ErrorCodes.DEFINE_REDEF
    else if is_number_too_large n then .err ErrorCodes.BIG_DEFINE
    else .cont { st with symbol_def_to_num := (s, n) :: st.symbol_def_to_num }
  | .label l =>
    if l = "DEPTH" then .err ErrorCodes.DEPTH_DEFINE
    else if (st.symbol_def_to_num.lookup l).isSome then .err ErrorCodes.DEFINE_REDEF
    else .cont { st with
      symbol_def_to_num := (l, (st.curr_instr_num + 1).toNat) :: st.symbol_def_to_num }
  | .type1 lbl _ _ _ _ => pass1_instr st lbl
  | .type2 lbl _ _ _ => pass1_instr st lbl
  | .type3 lbl _ _ _ => pass1_instr st lbl
  | .word lbl _ => pass1_instr st lbl
  | .unrecognized => .crash

/-- Outcome of pass 1 (Assembler.find_labels). -/
inductive Pass1Out
  | ok (st : St)
  | err (code : Int) (line : Nat)
  | crash (line : Nat)
deriving DecidableEq

/-- The find_labels loop, tracking the 1-based line number. -/
def find_labels_go (st : St) (lineNo : Nat) : List Line → Pass1Out
  | [] => .ok st
  | l :: rest =>
    match pass1_step st l with
    | .cont st2 => find_labels_go st2 (lineNo + 1) rest
    | .err c => .err c lineNo
    | .crash => .crash lineNo

/-- Assembler.find_labels: pass 1 over all lines, starting from line 1
and curr_instr_num = -1. -/
def find_labels (st : St) (lines : List Line) : Pass1Out :=
  find_labels_go { st with curr_instr_num := -1 } 1 lines

/-- Resolution of a second operand in pass 2: the try int(s, 0) except
symbol-table lookup pattern shared by the type 2 and type 3 parsers. -/
def resolveOperand (symtab : List (String × Nat)) : Operand → Option Nat
  | .num n => some n
  | .sym s => symtab.lookup s

/-- Result of one shape-specific parse in pass 2: the machine words to
append, an error code, or an uncaught Python exception. -/
inductive P2Res
  | ok (words : List Nat)
  | err (code : Int)
  | crash
deriving DecidableEq

/-- Assembler.parse_type1_instruction.  The chk flag records whether the
line also matches INSTR_TYPE1_CHK_REGEX (bracket indirection on an opcode
other than ld / st), which is rejected first. -/
def parse_type1_instruction (op ra_s rb_s : String) (chk : Bool) : P2Res :=
  if chk then .err ErrorCodes.BAD_INSTR
  else
    match INSTR_STR_TO_VAL op with
    | none => .err ErrorCodes.BAD_INSTR
    | some instr =>
      match REG_STR_TO_VAL ra_s with
      | none => .err ErrorCodes.BAD_REG
      | some ra =>
        match REG_STR_TO_VAL rb_s with
        | none => .err ErrorCodes.BAD_REG
        | some rb => .ok [make_type1_instruction instr ra rb]

/-- Assembler.parse_type2_instruction.  Mirrors the Python order of
checks: operand resolution first, then the size or low-byte check, which
indexes INSTR_VAL_TO_STR with the opcode before the opcode is tested for
none (a none opcode would raise there, modelled as crash), and finally
the register check. -/
def parse_type2_instruction (st : St) (op ra_s : String) (operand : Operand) : P2Res :=
  match resolveOperand st.symbol_def_to_num operand with
  | none => .err ErrorCodes.IMMED_LABEL_NF
  | some imm =>
    match INSTR_STR_TO_VAL op with
    | none => .crash
    | some instr =>
      if ¬ (INSTR_VAL_TO_STR.getD instr "" = "mvt ") then
        if is_number_too_large_imm imm then .err ErrorCodes.BIG_IMMED
        else
          match REG_STR_TO_VAL ra_s with
          | none => .err ErrorCodes.BAD_REG
          | some ra => .ok [make_type2_instruction instr ra imm]
      else
        if is_number_bad_imm imm then .err ErrorCodes.BAD_IMMED
        else
          match REG_STR_TO_VAL ra_s with
          | none => .err ErrorCodes.BAD_REG
          | some ra => .ok [make_type2_instruction instr ra imm]

/-- The condition lookup of parse_type3_instruction: group 4 when it was
captured, otherwise the empty condition. -/
def type3_cond (cond : Option String) : Option Nat :=
  match cond with
  | some c => COND_STR_TO_VAL c
  | none => COND_STR_TO_VAL ""

/-- Assembler.parse_type3_instruction.  The oversized-branch comparison
against depth_words runs before the opcode none check; a none condition
value would raise inside make_type3_instruction (modelled as crash). -/
def parse_type3_instruction (st : St) (mnem : String) (cond : Option String)
    (target : Operand) : P2Res :=
  match resolveOperand st.symbol_def_to_num target with
  | none => .err ErrorCodes.IMMED_LABEL_NF
  | some imm =>
    if imm ≥ st.depth_words then .err ErrorCodes.BIG_BRANCH
    else
      match INSTR_STR_TO_VAL mnem with
      | none => .err ErrorCodes.BAD_INSTR
      | some instr =>
        match type3_cond cond with
        | none => .crash
        | some c => .ok [make_type3_instruction instr c imm]

/-- Assembler.parse_word_dir: the captured literal becomes the raw word;
a capture that int rejects is the bad-data error. -/
def parse_word_dir (data : Operand) : P2Res :=
  match data with
  | .num n => .ok [n]
  | .sym _ => .err ErrorCodes.BAD_DATA

/-- The pass 2 outputs built line by line: machine_instructions and the
parallel is_inst tags, plus the instruction counter. -/
structure P2St where
  curr_instr_num : Int
  machine_instructions : List Nat
  is_inst : List Bool
deriving DecidableEq

/-- Initial pass 2 accumulators, as set at the top of parse_lines. -/
def initP2 : P2St :=
  { curr_instr_num := -1
    machine_instructions := []
    is_inst := [] }

/-- Dispatch of one line in parse_lines: only the four instruction / data
categories are parsed, every other category is skipped.  The none result
is a skip; a some result carries the parse outcome and the is_inst tag. -/
def parse_line_step (st : St) : Line → Option (P2Res × Bool)
  | .type1 _ op ra rb chk => some (parse_type1_instruction op ra rb chk, true)
  | .type2 _ op ra operand => some (parse_type2_instruction st op ra operand, true)
  | .type3 _ mnem cond target => some (parse_type3_instruction st mnem cond target, true)
  | .word _ data => some (parse_word_dir data, false)
  | _ => none

/-- Outcome of pass 2 (Assembler.parse_lines). -/
inductive Pass2Out
  | ok (p2 : P2St)
  | err (code : Int) (line : Nat)
  | crash (line : Nat)
deriving DecidableEq

/-- The parse_lines loop: on success the words and tag are appended and
the counter incremented; the first error stops the loop at once. -/
def parse_lines_go (st : St) (p2 : P2St) (lineNo : Nat) : List Line → Pass2Out
  | [] => .ok p2
  | l :: rest =>
    match parse_line_step st l with
    | none => parse_lines_go st p2 (lineNo + 1) rest
    | some (.ok ws, tag) =>
      parse_lines_go st
        { curr_instr_num := p2.curr_instr_num + 1
          machine_instructions := p2.machine_instructions ++ ws
          is_inst := p2.is_inst ++ [tag] } (lineNo + 1) rest
    | some (.err c, _) => .err c lineNo
    | some (.crash, _) => .crash lineNo

/-- Assembler.parse_lines: pass 2 over all lines with the symbol table
and depth frozen in st. -/
def parse_lines (st : St) (lines : List Line) : Pass2Out :=
  parse_lines_go st initP2 1 lines

/-- Overall result of Assembler.assemble: a pass 1 error message, a
pass 2 error message, an uncaught exception, or the written output (the
word list, the parallel tags, and the depth printed in the header). -/
inductive AsmResult
  | p1err (code : Int) (line : Nat)
  | p2err (code : Int) (line : Nat)
  | crash (line : Nat)
  | output (words : List Nat) (tags : List Bool) (depth : Nat)
deriving DecidableEq

/-- Assembler.assemble: run find_labels; on error report it and stop;
otherwise run parse_lines; on error report it and stop; otherwise write
the output file. -/
def assemble (lines : List Line) : AsmResult :=
  match find_labels initSt lines with
  | .err c ln => .p1err c ln
  | .crash ln => .crash ln
  | .ok st =>
    match parse_lines st lines with
    | .err c ln => .p2err c ln
    | .crash ln => .crash ln
    | .ok p2 => .output p2.machine_instructions p2.is_inst st.depth_words

/-- The number of lines that pass 2 parses into machine words: the four
instruction / data categories, each of which contributes exactly one
word on success. -/
def countEmittable : List Line → Nat
  | [] => 0
  | l :: rest =>
    (match l with
     | .type1 _ _ _ _ _ => 1
     | .type2 _ _ _ _ => 1
     | .type3 _ _ _ _ => 1
     | .word _ _ => 1
     | _ => 0) + countEmittable rest

/-- Field extraction rb of instruction_to_comment. -/
def decode_rb (instr : Nat) : Nat := instr &&& 0x0007

/-- Field extraction ra of instruction_to_comment. -/
def decode_ra (instr : Nat) : Nat := (instr >>> 9) &&& 0x0007

/-- Field extraction of the immediate flag in instruction_to_comment. -/
def decode_immflag (instr : Nat) : Nat := (instr >>> 12) &&& 0x0001

/-- Field extraction of the opcode in instruction_to_comment. -/
def decode_i (instr : Nat) : Nat := (instr >>> 13) &&& 0x0007

/-- Field extraction of the branch condition in instruction_to_comment. -/
def decode_cond (instr : Nat) : Nat := (instr >>> 9) &&& 0x0007

/-- The immediate value printed by instruction_to_comment when the
immediate flag is set: the low nine bits, shifted left by eight for an
mvt word. -/
def comment_imm_value (instr : Nat) : Nat :=
  if ¬ (INSTR_VAL_TO_STR.getD (decode_i instr) "" = "mvt ") then instr &&& 0x1FF
  else (instr &&& 0x1FF) <<< 8

/-- Lowercase hexadecimal digit, as printed by the Python %x format. -/
def hexChar (n : Nat) : Char :=
  if n = 0 then '0' else if n = 1 then '1' else if n = 2 then '2'
  else if n = 3 then '3' else if n = 4 then '4' else if n = 5 then '5'
  else if n = 6 then '6' else if n = 7 then '7' else if n = 8 then '8'
  else if n = 9 then '9' else if n = 10 then 'a' else if n = 11 then 'b'
  else if n = 12 then 'c' else if n = 13 then 'd' else if n = 14 then 'e'
  else 'f'

/-- Bare %x rendering of a natural number. -/
def toHexStr (n : Nat) : String :=
  if h : n < 16 then String.singleton (hexChar n)
  else toHexStr (n / 16) ++ String.singleton (hexChar (n % 16))
decreasing_by
  exact Nat.div_lt_self (by omega) (by omega)

/-- The %04x rendering: zero padded on the left to at least four
digits. -/
def fmt_hex4 (n : Nat) : String :=
  let s := toHexStr n
  String.mk (List.replicate (4 - s.length) '0') ++ s

/-- Assembler.instruction_to_comment: the disassembly comment appended to
each instruction word of the output file. -/
def instruction_to_comment (instr : Nat) : String :=
  let rb := decode_rb instr
  let ra := decode_ra instr
  let imm := decode_immflag instr
  let i := decode_i instr
  let cond := decode_cond instr
  let comment :=
    if INSTR_STR_TO_VAL "b" = some i then
      INSTR_VAL_TO_STR.getD i "" ++ COND_VAL_TO_STR.getD cond "" ++ "  "
    else
      INSTR_VAL_TO_STR.getD i "" ++ " " ++ REG_VAL_TO_STR.getD ra "" ++ ", "
  let comment :=
    if imm = 1 then
      if ¬ (INSTR_VAL_TO_STR.getD i "" = "mvt ") then
        comment ++ "#0x" ++ fmt_hex4 (instr &&& 0x1FF)
      else
        comment ++ "#0x" ++ fmt_hex4 ((instr &&& 0x1FF) <<< 8)
    else
      if INSTR_VAL_TO_STR.getD i "" = "ld  " ∨ INSTR_VAL_TO_STR.getD i "" = "st  " then
        comment ++ "[" ++ REG_VAL_TO_STR.getD rb "" ++ "]"
      else
        comment ++ REG_VAL_TO_STR.getD rb ""
  comment ++ " %"

/-! ## Bit-level helper lemmas for the 16-bit word layout -/

theorem or_shiftRight_distrib (a b k : Nat) :
    (a ||| b) >>> k = (a >>> k) ||| (b >>> k) := by
  apply Nat.eq_of_testBit_eq
  intro i
  simp [Nat.testBit_shiftRight, Nat.testBit_or]

theorem shiftLeft_and_of_lt (a : Nat) {m k : Nat} (h : m < 2 ^ k) :
    (a <<< k) &&& m = 0 := by
  apply Nat.eq_of_testBit_eq
  intro i
  rw [Nat.testBit_and, Nat.testBit_shiftLeft, Nat.zero_testBit]
  by_cases hik : k ≤ i
  · have hm : m.testBit i = false :=
      Nat.testBit_lt_two_pow (lt_of_lt_of_le h (Nat.pow_le_pow_right (by norm_num) hik))
    simp [hm]
  · simp [hik]

theorem and_511_eq_mod (x : Nat) : x &&& 511 = x % 512 := by
  have h := Nat.and_pow_two_sub_one_eq_mod x 9
  norm_num at h
  exact h

theorem and_255_eq_mod (x : Nat) : x &&& 255 = x % 256 := by
  have h := Nat.and_pow_two_sub_one_eq_mod x 8
  norm_num at h
  exact h

theorem and_7_eq_mod (x : Nat) : x &&& 7 = x % 8 := by
  have h := Nat.and_pow_two_sub_one_eq_mod x 3
  norm_num at h
  exact h

theorem and_1_eq_mod (x : Nat) : x &&& 1 = x % 2 :=
  Nat.and_one_is_mod x

theorem or_shiftLeft_eq_add {x : Nat} (a k : Nat) (hx : x < 2 ^ k) :
    x ||| (a <<< k) = x + 2 ^ k * a := by
  rw [Nat.shiftLeft_eq, Nat.or_comm, mul_comm a (2 ^ k), ← Nat.mul_add_lt_is_or hx a,
    Nat.add_comm]

theorem word_flag0_eq_sum (l m o : Nat) (hl : l < 512) (hm : m < 8) :
    l ||| (m <<< 9) ||| (o <<< 13) = l + 512 * m + 8192 * o := by
  rw [or_shiftLeft_eq_add m 9 (by omega)]
  rw [or_shiftLeft_eq_add o 13 (by norm_num; omega)]
  norm_num

theorem word_flag1_eq_sum (l m o : Nat) (hl : l < 512) (hm : m < 8) :
    l ||| (m <<< 9) ||| (1 <<< 12) ||| (o <<< 13) =
      l + 512 * m + 4096 + 8192 * o := by
  rw [or_shiftLeft_eq_add m 9 (by omega)]
  rw [or_shiftLeft_eq_add 1 12 (by norm_num; omega)]
  rw [or_shiftLeft_eq_add o 13 (by norm_num; omega)]
  norm_num

/-! ## Claim theorems -/

/-- Claim C1 (code bug): the specification states that pass 1 prints a
diagnostic for an unrecognized line and continues the walk without
incrementing the address counter.  In the code that diagnostic is dead:
when no regex matched, match is None, and the statement
label = match.group(2) dereferences None and raises AttributeError
before the match-is-None diagnostic below it can run, so the whole
assembly aborts with an uncaught exception.  This theorem evaluates the
model at the failing input: the pass crashes at line 1 and the remaining
lines are never processed. -/
theorem find_labels_unrecognized_raises :
    find_labels initSt [Line.unrecognized, Line.word none (Operand.num 5)] =
      Pass1Out.crash 1 ∧
    assemble [Line.unrecognized, Line.word none (Operand.num 5)] =
      AsmResult.crash 1 :=
  ⟨rfl, rfl⟩

/-- Claim C9: for a shape-3 branch line whose target resolves to t, pass
2 fails with the oversized-branch error exactly when t is at least
depth_words, and otherwise produces the word
(t and 0x1FF) or (cond shifted 9) or (1 shifted 12) or (7 shifted 13). -/
theorem branch_depth_check (st : St) (mnem : String) (cond : Option String)
    (target : Operand) (t c : Nat)
    (hm : INSTR_STR_TO_VAL mnem = some 7)
    (hc : type3_cond cond = some c)
    (ht : resolveOperand st.symbol_def_to_num target = some t) :
    (t ≥ st.depth_words →
      parse_type3_instruction st mnem cond target = P2Res.err ErrorCodes.BIG_BRANCH) ∧
    (t < st.depth_words →
      parse_type3_instruction st mnem cond target =
        P2Res.ok [(t &&& 0x1FF) ||| (c <<< 9) ||| (1 <<< 12) ||| (7 <<< 13)]) := by
  constructor
  · intro h
    simp only [parse_type3_instruction, ht]
    rw [if_pos h]
  · intro h
    simp only [parse_type3_instruction, ht]
    rw [if_neg (by omega), hm, hc]
    rfl

/-- Witness for branch_depth_check at a concrete accepted branch. -/
theorem branch_depth_check_witness :
    parse_type3_instruction initSt "beq" (some "eq") (Operand.num 3) =
      P2Res.ok [(3 &&& 0x1FF) ||| (1 <<< 9) ||| (1 <<< 12) ||| (7 <<< 13)] :=
  (branch_depth_check initSt "beq" (some "eq") (Operand.num 3) 3 1 rfl rfl rfl).2
    (by decide)

/-- Claim C10: a depth directive with value 0 passes the evenness check
of pass 1 and sets depth_words to 0, and in a program whose frozen depth
is 0 every branch whose target resolves (to any natural number) fails in
pass 2 with the oversized-branch error, before the opcode is even
inspected. -/
theorem depth_zero_branches_fail (st : St) (mnem : String) (cond : Option String)
    (target : Operand) (t : Nat)
    (hd : st.depth_words = 0)
    (ht : resolveOperand st.symbol_def_to_num target = some t) :
    pass1_step st (Line.depth 0) = StepRes.cont { st with depth_words := 0 } ∧
    parse_type3_instruction st mnem cond target = P2Res.err ErrorCodes.BIG_BRANCH := by
  constructor
  · rfl
  · simp only [parse_type3_instruction, ht]
    rw [if_pos (by omega)]

/-- Witness for depth_zero_branches_fail at a concrete state and line. -/
theorem depth_zero_branches_fail_witness :
    pass1_step ⟨[], 16, 0, -1⟩ (Line.depth 0) = StepRes.cont ⟨[], 16, 0, -1⟩ ∧
    parse_type3_instruction ⟨[], 16, 0, -1⟩ "b" none (Operand.num 0) =
      P2Res.err ErrorCodes.BIG_BRANCH :=
  depth_zero_branches_fail ⟨[], 16, 0, -1⟩ "b" none (Operand.num 0) 0 rfl rfl

/-- Helper: appending an even depth directive to a line list on which
pass 1 succeeds yields pass 1 success with depth_words overwritten,
whatever state pass 1 had reached. -/
theorem find_labels_go_append_depth (lines : List Line) (d : Nat) :
    ∀ (st st2 : St) (ln : Nat), find_labels_go st ln lines = Pass1Out.ok st2 →
      d % 2 = 0 →
      find_labels_go st ln (lines ++ [Line.depth d]) =
        Pass1Out.ok { st2 with depth_words := d } := by
  induction lines with
  | nil =>
    intro st st2 ln h hd
    simp only [find_labels_go] at h
    cases h
    simp [find_labels_go, pass1_step, hd]
  | cons l rest ih =>
    intro st st2 ln h hd
    rw [List.cons_append]
    simp only [find_labels_go] at h ⊢
    cases hstep : pass1_step st l with
    | cont st3 => rw [hstep] at h; exact ih st3 st2 (ln + 1) h hd
    | err c => rw [hstep] at h; exact Pass1Out.noConfusion h
    | crash => rw [hstep] at h; exact Pass1Out.noConfusion h

/-- Claim C3 (amended): the depth directive is not once-only and not
restricted to the prefix before the first emitted word.  Every even
depth directive processed by pass 1 overwrites depth_words, wherever it
appears; in particular appending one more even depth directive after any
successfully preprocessed program (including after emitted instructions)
ends pass 1 with that final value, and the value frozen for pass 2 is
the last one written (256 when no directive appears). -/
theorem find_labels_late_depth_overwrites (lines : List Line) (st : St) (d : Nat)
    (hok : find_labels initSt lines = Pass1Out.ok st) (hd : d % 2 = 0) :
    find_labels initSt (lines ++ [Line.depth d]) =
      Pass1Out.ok { st with depth_words := d } := by
  unfold find_labels at hok ⊢
  exact find_labels_go_append_depth lines d _ st 1 hok hd

/-- Witness for find_labels_late_depth_overwrites: a depth directive
appended after an emitted instruction still overwrites the depth. -/
theorem find_labels_late_depth_overwrites_witness :
    find_labels initSt ([Line.depth 4, Line.type1 none "mv" "r0" "r1" false] ++
      [Line.depth 8]) = Pass1Out.ok ⟨[], 16, 8, 0⟩ :=
  find_labels_late_depth_overwrites [Line.depth 4, Line.type1 none "mv" "r0" "r1" false]
    ⟨[], 16, 4, 0⟩ 8 rfl rfl

/-- Counterexample to claim C3 as stated: in the program consisting of a
depth directive 4, one instruction, and a depth directive 8, the second
directive appears after a word has been assigned an address, yet pass 1
accepts the program and the output header depth is 8, not 4: the second
directive silently overwrote the configuration. -/
theorem depth_overwrite_counterexample :
    assemble [Line.depth 4, Line.type1 none "mv" "r0" "r1" false, Line.depth 8] =
      AsmResult.output [1] [true] 8 ∧
    AsmResult.output ([1] : List Nat) ([true] : List Bool) 8 ≠
      AsmResult.output [1] [true] 4 :=
  ⟨rfl, by decide⟩

/-- Counterexample to claim C8 as stated: the clamp is only an upper
clamp, min(error_code, UNKNOWN).  A negative error kind survives the min
and misses every key of the message dict, so the Python lookup raises
KeyError instead of returning the generic fallback: the model returns
none at kind -1. -/
theorem get_error_message_negative_raises :
    get_error_message (-1) 7 256 0 = none := by
  decide

/-- Claim C8 (amended): get_error_message is total on the non-negative
error kinds: for every kind at least 0 and every line number, depth and
instruction count it returns a message, and every kind at or above
UNKNOWN clamps to the generic fallback message.  A negative kind instead
raises KeyError. -/
theorem get_error_message_total_on_nonneg (error_code line : Int) (depth : Nat)
    (instruction_count : Int) (h : 0 ≤ error_code) :
    (get_error_message error_code line depth instruction_count).isSome = true ∧
    (ErrorCodes.UNKNOWN ≤ error_code →
      get_error_message error_code line depth instruction_count =
        some "ERROR: UNKNOWN") := by
  rcases (show error_code = 0 ∨ error_code = 1 ∨ error_code = 2 ∨ error_code = 3 ∨
      error_code = 4 ∨ error_code = 5 ∨ error_code = 6 ∨ error_code = 7 ∨
      error_code = 8 ∨ error_code = 9 ∨ error_code = 10 ∨ error_code = 11 ∨
      (12 : Int) ≤ error_code by omega) with
    rfl | rfl | rfl | rfl | rfl | rfl | rfl | rfl | rfl | rfl | rfl | rfl | h12
  · exact ⟨rfl, fun hc => absurd (show (12 : Int) ≤ 0 from hc) (by omega)⟩
  · exact ⟨rfl, fun hc => absurd (show (12 : Int) ≤ 1 from hc) (by omega)⟩
  · exact ⟨rfl, fun hc => absurd (show (12 : Int) ≤ 2 from hc) (by omega)⟩
  · exact ⟨rfl, fun hc => absurd (show (12 : Int) ≤ 3 from hc) (by omega)⟩
  · exact ⟨rfl, fun hc => absurd (show (12 : Int) ≤ 4 from hc) (by omega)⟩
  · exact ⟨rfl, fun hc => absurd (show (12 : Int) ≤ 5 from hc) (by omega)⟩
  · exact ⟨rfl, fun hc => absurd (show (12 : Int) ≤ 6 from hc) (by omega)⟩
  · exact ⟨rfl, fun hc => absurd (show (12 : Int) ≤ 7 from hc) (by omega)⟩
  · exact ⟨rfl, fun hc => absurd (show (12 : Int) ≤ 8 from hc) (by omega)⟩
  · exact ⟨rfl, fun hc => absurd (show (12 : Int) ≤ 9 from hc) (by omega)⟩
  · exact ⟨rfl, fun hc => absurd (show (12 : Int) ≤ 10 from hc) (by omega)⟩
  · exact ⟨rfl, fun hc => absurd (show (12 : Int) ≤ 11 from hc) (by omega)⟩
  · have hmin : min error_code (12 : Int) = 12 := min_eq_right h12
    constructor
    · simp [get_error_message, ErrorCodes.UNKNOWN, hmin, ErrorCodes.NO_ERROR,
        ErrorCodes.BAD_INSTR, ErrorCodes.BAD_REG, ErrorCodes.BAD_IMMED,
        ErrorCodes.BIG_IMMED, ErrorCodes.BIG_DEFINE, ErrorCodes.DEFINE_REDEF,
        ErrorCodes.IMMED_LABEL_NF, ErrorCodes.DEPTH_ERROR, ErrorCodes.BAD_DATA,
        ErrorCodes.DEPTH_DEFINE, ErrorCodes.BIG_BRANCH]
    · intro hc
      simp [get_error_message, ErrorCodes.UNKNOWN, hmin, ErrorCodes.NO_ERROR,
        ErrorCodes.BAD_INSTR, ErrorCodes.BAD_REG, ErrorCodes.BAD_IMMED,
        ErrorCodes.BIG_IMMED, ErrorCodes.BIG_DEFINE, ErrorCodes.DEFINE_REDEF,
        ErrorCodes.IMMED_LABEL_NF, ErrorCodes.DEPTH_ERROR, ErrorCodes.BAD_DATA,
        ErrorCodes.DEPTH_DEFINE, ErrorCodes.BIG_BRANCH]

/-- Witness for get_error_message_total_on_nonneg at the out-of-range
kind 13, which clamps to the generic fallback. -/
theorem get_error_message_total_witness :
    (get_error_message 13 5 256 0).isSome = true ∧
    (ErrorCodes.UNKNOWN ≤ (13 : Int) →
      get_error_message 13 5 256 0 = some "ERROR: UNKNOWN") :=
  get_error_message_total_on_nonneg 13 5 256 0 (by omega)

/-- Counterexample to claim C2 as stated: mvt has no upper size check,
only the low-byte check, so the immediate 0x20000 (low byte zero) is
accepted; the encoded word is 0x3200, whose low 9 bits are 0, while
imm shifted right by 8 is 0x200.  The unbounded shifted immediate
collides with the register and opcode fields. -/
theorem mvt_low9_counterexample :
    parse_type2_instruction initSt "mvt" "r0" (Operand.num 0x20000) =
      P2Res.ok [0x3200] ∧
    ¬ ((0x3200 : Nat) &&& 0x1FF = 0x20000 >>> 8) :=
  ⟨rfl, by decide⟩

/-- Claim C2 (amended): for a type 2 mvt line whose operand resolves to
imm with a valid register, pass 2 accepts exactly when the low byte of
imm is zero (otherwise the bad-immediate error), and the accepted word
is (imm >> 8) or (ra << 9) or (1 << 12) or (1 << 13).  The low 9 bits
of that word equal (imm >> 8) masked to 9 bits, which equals imm >> 8
whenever imm < 0x20000; above that the field is truncated. -/
theorem mvt_accept_iff_low_byte_zero (st : St) (ra_s : String) (operand : Operand)
    (imm ra : Nat)
    (hra : REG_STR_TO_VAL ra_s = some ra)
    (hres : resolveOperand st.symbol_def_to_num operand = some imm) :
    (imm &&& 0xFF = 0 →
      parse_type2_instruction st "mvt" ra_s operand =
        P2Res.ok [(imm >>> 8) ||| (ra <<< 9) ||| (1 <<< 12) ||| (1 <<< 13)]) ∧
    (imm &&& 0xFF ≠ 0 →
      parse_type2_instruction st "mvt" ra_s operand =
        P2Res.err ErrorCodes.BAD_IMMED) ∧
    ((imm >>> 8) ||| (ra <<< 9) ||| (1 <<< 12) ||| (1 <<< 13)) &&& 0x1FF =
      (imm >>> 8) &&& 0x1FF ∧
    (imm < 0x20000 →
      ((imm >>> 8) ||| (ra <<< 9) ||| (1 <<< 12) ||| (1 <<< 13)) &&& 0x1FF =
        imm >>> 8) := by
  have hmask : ((imm >>> 8) ||| (ra <<< 9) ||| (1 <<< 12) ||| (1 <<< 13)) &&& 0x1FF =
      (imm >>> 8) &&& 0x1FF := by
    rw [Nat.and_distrib_right, Nat.and_distrib_right, Nat.and_distrib_right]
    rw [shiftLeft_and_of_lt ra (show (0x1FF : Nat) < 2 ^ 9 by norm_num)]
    rw [shiftLeft_and_of_lt 1 (show (0x1FF : Nat) < 2 ^ 12 by norm_num)]
    rw [shiftLeft_and_of_lt 1 (show (0x1FF : Nat) < 2 ^ 13 by norm_num)]
    simp
  refine ⟨?_, ?_, hmask, ?_⟩
  · intro h
    simp [parse_type2_instruction, hres, hra, is_number_bad_imm, h,
      make_type2_instruction, INSTR_STR_TO_VAL, INSTR_VAL_TO_STR]
  · intro h
    simp [parse_type2_instruction, hres, hra, is_number_bad_imm, h,
      INSTR_STR_TO_VAL, INSTR_VAL_TO_STR]
  · intro hlt
    rw [hmask, and_511_eq_mod, Nat.shiftRight_eq_div_pow]
    norm_num
    omega

/-- Witness for mvt_accept_iff_low_byte_zero at mvt r0, 0x1200. -/
theorem mvt_accept_iff_low_byte_zero_witness :
    parse_type2_instruction initSt "mvt" "r0" (Operand.num 0x1200) =
      P2Res.ok [((0x1200 : Nat) >>> 8) ||| (0 <<< 9) ||| (1 <<< 12) ||| (1 <<< 13)] :=
  (mvt_accept_iff_low_byte_zero initSt "r0" (Operand.num 0x1200) 0x1200 0
    rfl rfl).1 (by decide)

/-- Helper: only opcode 1 maps to the mvt mnemonic in the value table. -/
theorem INSTR_VAL_TO_STR_getD_ne_mvt {i : Nat} (h : i ≠ 1) :
    ¬ (INSTR_VAL_TO_STR.getD i "" = "mvt ") := by
  rcases i with _ | _ | _ | _ | _ | _ | _ | _ | _ | _ | _ | _ | n
  all_goals simp_all [INSTR_VAL_TO_STR]

/-- Helper: a three-term or of values below 2 to the 16 stays below. -/
theorem or3_lt_two_pow_16 {a b c : Nat} (ha : a < 2 ^ 16) (hb : b < 2 ^ 16)
    (hc : c < 2 ^ 16) : a ||| b ||| c < 2 ^ 16 :=
  Nat.or_lt_two_pow (Nat.or_lt_two_pow ha hb) hc

/-- Helper: a four-term or of values below 2 to the 16 stays below. -/
theorem or4_lt_two_pow_16 {a b c d : Nat} (ha : a < 2 ^ 16) (hb : b < 2 ^ 16)
    (hc : c < 2 ^ 16) (hd : d < 2 ^ 16) : a ||| b ||| c ||| d < 2 ^ 16 :=
  Nat.or_lt_two_pow (or3_lt_two_pow_16 ha hb hc) hd

/-- Counterexample to claim C5 as stated: a .word directive has no
upper-bound check, so the 17-bit literal 65536 is appended to the
program unchanged and the artifact is written. -/
theorem word_dir_exceeds_16bit_counterexample :
    assemble [Line.word none (Operand.num 65536)] =
      AsmResult.output [65536] [false] 256 ∧
    ¬ ((65536 : Nat) ≤ MAX_INT_16U) :=
  ⟨rfl, by decide⟩

/-- Claim C5 (amended): the words built by the type 1 and type 3
encoders, and by the type 2 encoder for every opcode other than mvt,
always fit in 16 bits; the mvt word (whose immediate field is the
unmasked imm >> 8) and the raw .word datum are appended with no 16-bit
bound enforced. -/
theorem encoders_bounded :
    (∀ i ra rb : Nat, i ≤ 7 → ra ≤ 7 → rb ≤ 7 →
      make_type1_instruction i ra rb ≤ 65535) ∧
    (∀ i ra imm : Nat, i ≤ 7 → i ≠ 1 → ra ≤ 7 →
      make_type2_instruction i ra imm ≤ 65535) ∧
    (∀ i c imm : Nat, i ≤ 7 → c ≤ 7 →
      make_type3_instruction i c imm ≤ 65535) ∧
    (∀ n : Nat, parse_word_dir (Operand.num n) = P2Res.ok [n]) := by
  have hp : (2 : Nat) ^ 16 = 65536 := by norm_num
  refine ⟨?_, ?_, ?_, fun n => rfl⟩
  · intro i ra rb hi hra hrb
    have h1 : rb < 2 ^ 16 := by omega
    have h2 : ra <<< 9 < 2 ^ 16 := by
      rw [Nat.shiftLeft_eq, show (2 : Nat) ^ 9 = 512 by norm_num, hp]; omega
    have h3 : i <<< 13 < 2 ^ 16 := by
      rw [Nat.shiftLeft_eq, show (2 : Nat) ^ 13 = 8192 by norm_num, hp]; omega
    have hw : make_type1_instruction i ra rb < 2 ^ 16 := by
      unfold make_type1_instruction
      exact or3_lt_two_pow_16 h1 h2 h3
    omega
  · intro i ra imm hi hne hra
    have h1 : imm &&& 0x1FF < 2 ^ 16 := by
      rw [and_511_eq_mod, hp]; omega
    have h2 : ra <<< 9 < 2 ^ 16 := by
      rw [Nat.shiftLeft_eq, show (2 : Nat) ^ 9 = 512 by norm_num, hp]; omega
    have h3 : (1 : Nat) <<< 12 < 2 ^ 16 := by
      rw [Nat.shiftLeft_eq, show (2 : Nat) ^ 12 = 4096 by norm_num, hp]; omega
    have h4 : i <<< 13 < 2 ^ 16 := by
      rw [Nat.shiftLeft_eq, show (2 : Nat) ^ 13 = 8192 by norm_num, hp]; omega
    have hw : make_type2_instruction i ra imm < 2 ^ 16 := by
      unfold make_type2_instruction
      rw [if_pos (INSTR_VAL_TO_STR_getD_ne_mvt hne)]
      exact or4_lt_two_pow_16 h1 h2 h3 h4
    omega
  · intro i c imm hi hc
    have h1 : imm &&& 0x1FF < 2 ^ 16 := by
      rw [and_511_eq_mod, hp]; omega
    have h2 : c <<< 9 < 2 ^ 16 := by
      rw [Nat.shiftLeft_eq, show (2 : Nat) ^ 9 = 512 by norm_num, hp]; omega
    have h3 : (1 : Nat) <<< 12 < 2 ^ 16 := by
      rw [Nat.shiftLeft_eq, show (2 : Nat) ^ 12 = 4096 by norm_num, hp]; omega
    have h4 : i <<< 13 < 2 ^ 16 := by
      rw [Nat.shiftLeft_eq, show (2 : Nat) ^ 13 = 8192 by norm_num, hp]; omega
    have hw : make_type3_instruction i c imm < 2 ^ 16 := by
      unfold make_type3_instruction
      exact or4_lt_two_pow_16 h1 h2 h3 h4
    omega

/-- Witness for encoders_bounded at mv r0, r1. -/
theorem encoders_bounded_witness :
    make_type1_instruction 0 0 1 ≤ 65535 :=
  encoders_bounded.1 0 0 1 (by decide) (by decide) (by decide)

/-- Helper: field extraction from a flag-1 word with a low field below
512 and 3-bit middle and opcode fields. -/
theorem decode_fields_flag1 (l m o : Nat) (hl : l < 512) (hm : m < 8) (ho : o < 8) :
    decode_i (l ||| (m <<< 9) ||| (1 <<< 12) ||| (o <<< 13)) = o ∧
    decode_ra (l ||| (m <<< 9) ||| (1 <<< 12) ||| (o <<< 13)) = m ∧
    decode_cond (l ||| (m <<< 9) ||| (1 <<< 12) ||| (o <<< 13)) = m ∧
    decode_immflag (l ||| (m <<< 9) ||| (1 <<< 12) ||| (o <<< 13)) = 1 ∧
    (l ||| (m <<< 9) ||| (1 <<< 12) ||| (o <<< 13)) &&& 0x1FF = l := by
  have hsum : l ||| (m <<< 9) ||| (1 <<< 12) ||| (o <<< 13) =
      l + 512 * m + 4096 + 8192 * o := word_flag1_eq_sum l m o hl hm
  refine ⟨?_, ?_, ?_, ?_, ?_⟩ <;> rw [hsum]
  · rw [decode_i, Nat.shiftRight_eq_div_pow, and_7_eq_mod,
      show (2 : Nat) ^ 13 = 8192 by norm_num]
    omega
  · rw [decode_ra, Nat.shiftRight_eq_div_pow, and_7_eq_mod,
      show (2 : Nat) ^ 9 = 512 by norm_num]
    omega
  · rw [decode_cond, Nat.shiftRight_eq_div_pow, and_7_eq_mod,
      show (2 : Nat) ^ 9 = 512 by norm_num]
    omega
  · rw [decode_immflag, Nat.shiftRight_eq_div_pow, and_1_eq_mod,
      show (2 : Nat) ^ 12 = 4096 by norm_num]
    omega
  · rw [and_511_eq_mod]
    omega

/-- Helper: field extraction from a flag-0 word with 3-bit fields. -/
theorem decode_fields_flag0 (l m o : Nat) (hl : l < 8) (hm : m < 8) (ho : o < 8) :
    decode_i (l ||| (m <<< 9) ||| (o <<< 13)) = o ∧
    decode_ra (l ||| (m <<< 9) ||| (o <<< 13)) = m ∧
    decode_rb (l ||| (m <<< 9) ||| (o <<< 13)) = l ∧
    decode_immflag (l ||| (m <<< 9) ||| (o <<< 13)) = 0 := by
  have hsum : l ||| (m <<< 9) ||| (o <<< 13) = l + 512 * m + 8192 * o :=
    word_flag0_eq_sum l m o (by omega) hm
  refine ⟨?_, ?_, ?_, ?_⟩ <;> rw [hsum]
  · rw [decode_i, Nat.shiftRight_eq_div_pow, and_7_eq_mod,
      show (2 : Nat) ^ 13 = 8192 by norm_num]
    omega
  · rw [decode_ra, Nat.shiftRight_eq_div_pow, and_7_eq_mod,
      show (2 : Nat) ^ 9 = 512 by norm_num]
    omega
  · rw [decode_rb, and_7_eq_mod]
    omega
  · rw [decode_immflag, Nat.shiftRight_eq_div_pow, and_1_eq_mod,
      show (2 : Nat) ^ 12 = 4096 by norm_num]
    omega

/-- Counterexample to claim C6 as stated: with depth 1024 the branch
b 600 is accepted by pass 2 (600 < 1024), but only 600 and 0x1FF = 88
survives in the 9-bit offset field, and the disassembly in the output
comment shows 88, not the original target 600. -/
theorem branch_target_truncated_counterexample :
    assemble [Line.depth 1024, Line.type3 none "b" none (Operand.num 600)] =
      AsmResult.output [61528] [true] 1024 ∧
    comment_imm_value 61528 = 88 ∧ ¬ ((88 : Nat) = 600) :=
  ⟨rfl, by decide, by decide⟩

/-- Claim C6 (amended): decoding with the output formatter field
extractions reproduces a shape 1 instruction exactly (opcode value,
both registers, flag 0; pc decodes as its alias r7); it reproduces a
shape 2 non-mvt word whenever the immediate fits the accepted range
imm at most 0x1FF; it reproduces an mvt word only when additionally
imm is at most 0x1FF00; and it reproduces a branch word only when the
target is at most 0x1FF, although targets up to depth_words - 1 are
accepted: beyond these bounds the printed immediate is truncated. -/
theorem encode_decode_roundtrip :
    (∀ i ra rb : Nat, i ≤ 6 → ra ≤ 7 → rb ≤ 7 →
      decode_i (make_type1_instruction i ra rb) = i ∧
      decode_ra (make_type1_instruction i ra rb) = ra ∧
      decode_rb (make_type1_instruction i ra rb) = rb ∧
      decode_immflag (make_type1_instruction i ra rb) = 0) ∧
    (∀ i ra imm : Nat, i ≤ 7 → i ≠ 1 → ra ≤ 7 → imm ≤ 0x1FF →
      decode_i (make_type2_instruction i ra imm) = i ∧
      decode_ra (make_type2_instruction i ra imm) = ra ∧
      decode_immflag (make_type2_instruction i ra imm) = 1 ∧
      comment_imm_value (make_type2_instruction i ra imm) = imm) ∧
    (∀ ra imm : Nat, ra ≤ 7 → imm &&& 0xFF = 0 → imm ≤ 0x1FF00 →
      decode_i (make_type2_instruction 1 ra imm) = 1 ∧
      decode_ra (make_type2_instruction 1 ra imm) = ra ∧
      decode_immflag (make_type2_instruction 1 ra imm) = 1 ∧
      comment_imm_value (make_type2_instruction 1 ra imm) = imm) ∧
    (∀ c t : Nat, c ≤ 7 → t ≤ 0x1FF →
      decode_i (make_type3_instruction 7 c t) = 7 ∧
      decode_cond (make_type3_instruction 7 c t) = c ∧
      decode_immflag (make_type3_instruction 7 c t) = 1 ∧
      comment_imm_value (make_type3_instruction 7 c t) = t) := by
  refine ⟨?_, ?_, ?_, ?_⟩
  · intro i ra rb hi hra hrb
    have h := decode_fields_flag0 rb ra i (by omega) (by omega) (by omega)
    rw [make_type1_instruction]
    exact ⟨h.1, h.2.1, h.2.2.1, h.2.2.2⟩
  · intro i ra imm hi hne hra himm
    have hid : imm &&& 0x1FF = imm := by
      rw [and_511_eq_mod]
      omega
    have hw : make_type2_instruction i ra imm =
        imm ||| (ra <<< 9) ||| (1 <<< 12) ||| (i <<< 13) := by
      rw [make_type2_instruction, if_pos (INSTR_VAL_TO_STR_getD_ne_mvt hne), hid]
    have h := decode_fields_flag1 imm ra i (by omega) (by omega) (by omega)
    rw [hw]
    refine ⟨h.1, h.2.1, h.2.2.2.1, ?_⟩
    rw [comment_imm_value, h.1, if_pos (INSTR_VAL_TO_STR_getD_ne_mvt hne)]
    exact h.2.2.2.2
  · intro ra imm hra hlow himm
    have hl : imm >>> 8 < 512 := by
      rw [Nat.shiftRight_eq_div_pow, show (2 : Nat) ^ 8 = 256 by norm_num]
      omega
    have hw : make_type2_instruction 1 ra imm =
        (imm >>> 8) ||| (ra <<< 9) ||| (1 <<< 12) ||| (1 <<< 13) := by
      rw [make_type2_instruction]
      simp [INSTR_VAL_TO_STR]
    have h := decode_fields_flag1 (imm >>> 8) ra 1 hl (by omega) (by omega)
    rw [hw]
    refine ⟨h.1, h.2.1, h.2.2.2.1, ?_⟩
    rw [comment_imm_value, h.1]
    rw [if_neg (by simp [INSTR_VAL_TO_STR])]
    rw [h.2.2.2.2]
    rw [Nat.shiftLeft_eq, Nat.shiftRight_eq_div_pow,
      show (2 : Nat) ^ 8 = 256 by norm_num]
    rw [and_255_eq_mod] at hlow
    omega
  · intro c t hc ht
    have hid : t &&& 0x1FF = t := by
      rw [and_511_eq_mod]
      omega
    have hw : make_type3_instruction 7 c t =
        t ||| (c <<< 9) ||| (1 <<< 12) ||| (7 <<< 13) := by
      rw [make_type3_instruction, hid]
    have h := decode_fields_flag1 t c 7 (by omega) (by omega) (by omega)
    rw [hw]
    refine ⟨h.1, h.2.2.1, h.2.2.2.1, ?_⟩
    rw [comment_imm_value, h.1,
      if_pos (INSTR_VAL_TO_STR_getD_ne_mvt (by omega : (7 : Nat) ≠ 1))]
    exact h.2.2.2.2

/-- Witness for encode_decode_roundtrip at add r1, 5. -/
theorem encode_decode_roundtrip_witness :
    decode_i (make_type2_instruction 2 1 5) = 2 ∧
    decode_ra (make_type2_instruction 2 1 5) = 1 ∧
    decode_immflag (make_type2_instruction 2 1 5) = 1 ∧
    comment_imm_value (make_type2_instruction 2 1 5) = 5 :=
  encode_decode_roundtrip.2.1 2 1 5 (by decide) (by decide) (by decide) (by decide)

/-- Helper: once pass 2 hits an error the lines after it are never
looked at: appending any suffix leaves the error unchanged. -/
theorem parse_lines_go_err_append (st : St) (ls2 : List Line) :
    ∀ (lines : List Line) (p2 : P2St) (ln0 : Nat) (c : Int) (ln : Nat),
      parse_lines_go st p2 ln0 lines = Pass2Out.err c ln →
      parse_lines_go st p2 ln0 (lines ++ ls2) = Pass2Out.err c ln := by
  intro lines
  induction lines with
  | nil =>
    intro p2 ln0 c ln h
    simp only [parse_lines_go] at h
    exact Pass2Out.noConfusion h
  | cons l rest ih =>
    intro p2 ln0 c ln h
    rw [List.cons_append]
    simp only [parse_lines_go] at h ⊢
    cases hstep : parse_line_step st l with
    | none =>
      rw [hstep] at h
      exact ih p2 (ln0 + 1) c ln h
    | some pr =>
      obtain ⟨r, tag⟩ := pr
      rw [hstep] at h
      cases r with
      | ok ws => exact ih _ (ln0 + 1) c ln h
      | err c2 => exact h
      | crash => exact Pass2Out.noConfusion h

/-- Claim C7: assembly is atomic.  A pass 1 error becomes the single
reported diagnostic and pass 2 never runs; a pass 2 error becomes the
single reported diagnostic and no output is produced; a pass 2 error is
unchanged by any lines after the failing one (they are not processed);
and an output is produced exactly when both passes succeed, in which
case it is the full word list. -/
theorem assemble_atomic (lines ls2 : List Line) :
    (∀ c ln, find_labels initSt lines = Pass1Out.err c ln →
      assemble lines = AsmResult.p1err c ln) ∧
    (∀ st c ln, find_labels initSt lines = Pass1Out.ok st →
      parse_lines st lines = Pass2Out.err c ln →
      assemble lines = AsmResult.p2err c ln) ∧
    (∀ st p2 ln0 c ln, parse_lines_go st p2 ln0 lines = Pass2Out.err c ln →
      parse_lines_go st p2 ln0 (lines ++ ls2) = Pass2Out.err c ln) ∧
    (∀ ws tags d, assemble lines = AsmResult.output ws tags d →
      ∃ st p2, find_labels initSt lines = Pass1Out.ok st ∧
        parse_lines st lines = Pass2Out.ok p2 ∧
        ws = p2.machine_instructions ∧ tags = p2.is_inst ∧ d = st.depth_words) := by
  refine ⟨?_, ?_, ?_, ?_⟩
  · intro c ln h
    simp only [assemble, h]
  · intro st c ln h1 h2
    simp only [assemble, h1, h2]
  · intro st p2 ln0 c ln h
    exact parse_lines_go_err_append st ls2 lines p2 ln0 c ln h
  · intro ws tags d h
    cases hf : find_labels initSt lines with
    | err c ln =>
      simp only [assemble, hf] at h
      exact AsmResult.noConfusion h
    | crash ln =>
      simp only [assemble, hf] at h
      exact AsmResult.noConfusion h
    | ok st =>
      cases hp : parse_lines st lines with
      | err c ln =>
        simp only [assemble, hf, hp] at h
        exact AsmResult.noConfusion h
      | crash ln =>
        simp only [assemble, hf, hp] at h
        exact AsmResult.noConfusion h
      | ok p2 =>
        simp only [assemble, hf, hp] at h
        injection h with e1 e2 e3
        exact ⟨st, p2, rfl, hp, e1.symm, e2.symm, e3.symm⟩

/-- Witness for assemble_atomic: the mvt line with immediate 5 fails in
pass 2 with the bad-immediate error at line 1 and no output exists. -/
theorem assemble_atomic_witness :
    assemble [Line.type2 none "mvt" "r0" (Operand.num 5)] =
      AsmResult.p2err ErrorCodes.BAD_IMMED 1 :=
  (assemble_atomic [Line.type2 none "mvt" "r0" (Operand.num 5)]
      [Line.word none (Operand.num 1)]).2.1 ⟨[], 16, 256, 0⟩ ErrorCodes.BAD_IMMED 1
    rfl rfl

/-- Helper: a successful type 1 parse emits exactly one word. -/
theorem parse_type1_ok_singleton {op ra rb : String} {chk : Bool} {ws : List Nat}
    (h : parse_type1_instruction op ra rb chk = P2Res.ok ws) : ws.length = 1 := by
  unfold parse_type1_instruction at h
  repeat' split at h
  any_goals exact P2Res.noConfusion h
  all_goals injection h with e
  all_goals subst e
  all_goals rfl

/-- Helper: a successful type 2 parse emits exactly one word. -/
theorem parse_type2_ok_singleton {st : St} {op ra : String} {operand : Operand}
    {ws : List Nat} (h : parse_type2_instruction st op ra operand = P2Res.ok ws) :
    ws.length = 1 := by
  unfold parse_type2_instruction at h
  repeat' split at h
  any_goals exact P2Res.noConfusion h
  all_goals injection h with e
  all_goals subst e
  all_goals rfl

/-- Helper: a successful type 3 parse emits exactly one word. -/
theorem parse_type3_ok_singleton {st : St} {mnem : String} {cond : Option String}
    {target : Operand} {ws : List Nat}
    (h : parse_type3_instruction st mnem cond target = P2Res.ok ws) :
    ws.length = 1 := by
  unfold parse_type3_instruction at h
  repeat' split at h
  any_goals exact P2Res.noConfusion h
  all_goals injection h with e
  all_goals subst e
  all_goals rfl

/-- Helper: a successful .word parse emits exactly one word. -/
theorem parse_word_dir_ok_singleton {data : Operand} {ws : List Nat}
    (h : parse_word_dir data = P2Res.ok ws) : ws.length = 1 := by
  unfold parse_word_dir at h
  split at h
  any_goals exact P2Res.noConfusion h
  all_goals injection h with e
  all_goals subst e
  all_goals rfl

/-- Helper: a successful pass 2 run emits one word and one tag per
emittable line, on top of whatever the accumulators already hold. -/
theorem parse_lines_go_ok_length (st : St) :
    ∀ (lines : List Line) (p2 p2out : P2St) (ln : Nat),
      parse_lines_go st p2 ln lines = Pass2Out.ok p2out →
      p2out.machine_instructions.length =
        p2.machine_instructions.length + countEmittable lines ∧
      p2out.is_inst.length = p2.is_inst.length + countEmittable lines := by
  intro lines
  induction lines with
  | nil =>
    intro p2 p2out ln h
    simp only [parse_lines_go] at h
    cases h
    simp [countEmittable]
  | cons l rest ih =>
    intro p2 p2out ln h
    simp only [parse_lines_go] at h
    cases l with
    | type1 lbl op ra rb chk =>
      simp only [parse_line_step] at h
      cases hr : parse_type1_instruction op ra rb chk with
      | ok ws =>
        rw [hr] at h
        have H2 := ih _ p2out (ln + 1) h
        have hws : ws.length = 1 := parse_type1_ok_singleton hr
        simp only [countEmittable, List.length_append, List.length_singleton] at H2 ⊢
        omega
      | err c => rw [hr] at h; exact Pass2Out.noConfusion h
      | crash => rw [hr] at h; exact Pass2Out.noConfusion h
    | type2 lbl op ra operand =>
      simp only [parse_line_step] at h
      cases hr : parse_type2_instruction st op ra operand with
      | ok ws =>
        rw [hr] at h
        have H2 := ih _ p2out (ln + 1) h
        have hws : ws.length = 1 := parse_type2_ok_singleton hr
        simp only [countEmittable, List.length_append, List.length_singleton] at H2 ⊢
        omega
      | err c => rw [hr] at h; exact Pass2Out.noConfusion h
      | crash => rw [hr] at h; exact Pass2Out.noConfusion h
    | type3 lbl mnem cond target =>
      simp only [parse_line_step] at h
      cases hr : parse_type3_instruction st mnem cond target with
      | ok ws =>
        rw [hr] at h
        have H2 := ih _ p2out (ln + 1) h
        have hws : ws.length = 1 := parse_type3_ok_singleton hr
        simp only [countEmittable, List.length_append, List.length_singleton] at H2 ⊢
        omega
      | err c => rw [hr] at h; exact Pass2Out.noConfusion h
      | crash => rw [hr] at h; exact Pass2Out.noConfusion h
    | word lbl data =>
      simp only [parse_line_step] at h
      cases hr : parse_word_dir data with
      | ok ws =>
        rw [hr] at h
        have H2 := ih _ p2out (ln + 1) h
        have hws : ws.length = 1 := parse_word_dir_ok_singleton hr
        simp only [countEmittable, List.length_append, List.length_singleton] at H2 ⊢
        omega
      | err c => rw [hr] at h; exact Pass2Out.noConfusion h
      | crash => rw [hr] at h; exact Pass2Out.noConfusion h
    | blank =>
      have H2 := ih p2 p2out (ln + 1) h
      simp only [countEmittable] at H2 ⊢
      omega
    | depth d =>
      have H2 := ih p2 p2out (ln + 1) h
      simp only [countEmittable] at H2 ⊢
      omega
    | define s n =>
      have H2 := ih p2 p2out (ln + 1) h
      simp only [countEmittable] at H2 ⊢
      omega
    | label s =>
      have H2 := ih p2 p2out (ln + 1) h
      simp only [countEmittable] at H2 ⊢
      omega
    | unrecognized =>
      have H2 := ih p2 p2out (ln + 1) h
      simp only [countEmittable] at H2 ⊢
      omega

/-- Counterexample to claim C4 as stated: pass 2 never compares the word
count against depth_words.  With depth configured to 2, three .word
lines assemble successfully and the written artifact holds 3 words,
exceeding the configured depth. -/
theorem words_exceed_depth_counterexample :
    assemble [Line.depth 2, Line.word none (Operand.num 1),
      Line.word none (Operand.num 1), Line.word none (Operand.num 1)] =
      AsmResult.output [1, 1, 1] [false, false, false] 2 ∧
    ¬ (([1, 1, 1] : List Nat).length ≤ 2) :=
  ⟨rfl, by decide⟩

/-- Claim C4 (amended): when assembly succeeds the emitted word list has
exactly one word (and one tag) per instruction or data line; no
comparison against depth_words is made, so the program may exceed the
configured depth. -/
theorem assemble_output_length (lines : List Line) (ws : List Nat) (tags : List Bool)
    (d : Nat) (h : assemble lines = AsmResult.output ws tags d) :
    ws.length = countEmittable lines ∧ tags.length = countEmittable lines := by
  cases hf : find_labels initSt lines with
  | err c ln =>
    simp only [assemble, hf] at h
    exact AsmResult.noConfusion h
  | crash ln =>
    simp only [assemble, hf] at h
    exact AsmResult.noConfusion h
  | ok st =>
    cases hp : parse_lines st lines with
    | err c ln =>
      simp only [assemble, hf, hp] at h
      exact AsmResult.noConfusion h
    | crash ln =>
      simp only [assemble, hf, hp] at h
      exact AsmResult.noConfusion h
    | ok p2 =>
      simp only [assemble, hf, hp] at h
      injection h with e1 e2 e3
      unfold parse_lines at hp
      have H := parse_lines_go_ok_length st lines initP2 p2 1 hp
      simp only [initP2, List.length_nil] at H
      rw [← e1, ← e2]
      omega

/-- Witness for assemble_output_length on a one-line data program. -/
theorem assemble_output_length_witness :
    ([1] : List Nat).length = countEmittable [Line.word none (Operand.num 1)] ∧
    ([false] : List Bool).length = countEmittable [Line.word none (Operand.num 1)] :=
  assemble_output_length [Line.word none (Operand.num 1)] [1] [false] 256 rfl
